import Mathlib

/-!
# Verification of the shenfun transform-pipeline core

Shallow embedding of the parts of shenfun under scrutiny:

* `shenfun/spectralbase.py`   — `SpectralBase.forward`, `apply_inverse_mass`,
  `__eq__`, `__hash__`;
* `shenfun/tensorproductspace.py` — `TensorProductSpace.__init__` (axes and
  dtype validation, stage/transfer bookkeeping) and the `BoundaryValues`
  class (`has_nonhomogeneous_bcs`, `set_tensor_bcs`, `set_slices`,
  `apply_before`, `apply_after`);
* `shenfun/fourier/bases.py`  — `R2CBasis._truncation_forward`,
  `R2CBasis._padding_backward`;
* `shenfun/legendre/bases.py` — `LegendreBase.plan` (same replanning guard as
  `ShenDirichletBasis.plan`).

Coefficient arrays are viewed along the axis of the basis in question: a 1D
array of length `n` is a function `Nat → Int` (or `Nat → Cx` for complex
data) whose meaningful indices are `0 ≤ i < n`.  numpy basic indexing with a
possibly negative Python index is `pyIdx`.
-/

namespace Shenfun

/-- Resolve a Python index `k` against an array of length `n`:
negative indices count from the end (`u[-1]` is `u[n-1]`). -/
def pyIdx (n : Nat) (k : Int) : Nat :=
  if k < 0 then (k + n).toNat else k.toNat

/-- Pointwise update of a 1D array: `upd u i v` is `u` with `u[i] = v`. -/
def upd {α : Type} (u : Nat → α) (i : Nat) (v : α) : Nat → α :=
  fun j => if j = i then v else u j

/-! ## BoundaryValues (tensorproductspace.py)

`bc` holds the raw constructor data (the constant-`Number` case of the
source is modelled; values live in `Int`), `bcs` the processed boundary
values, `bcs_final` the values after all subsequent pipeline transforms.
`sl0`, `sl1`, `slm1`, `slm2` store the Python indices produced by
`T.sl(0)`, `T.sl(1)`, `T.sl(-1)`, `T.sl(-2)`: the slice selecting that
index along the axis of the Dirichlet basis, here the index itself. -/

structure BoundaryValues where
  bc : Int × Int
  bcs : Int × Int
  bcs_final : Int × Int
  sl0 : Int
  sl1 : Int
  slm1 : Int
  slm2 : Int
deriving DecidableEq

/-- Body of `update_bcs` for a pair of plain numbers: the raw pair is
stored and both `bcs` and `bcs_final` are set to it. -/
def update_bcs (v : BoundaryValues) (bc : Int × Int) : BoundaryValues :=
  { v with bc := bc, bcs := bc, bcs_final := bc }

/-- `BoundaryValues.__init__`: slices default to `0, 1, -1, -2` and
`update_bcs` processes the boundary pair. -/
def mkBoundaryValues (bc : Int × Int) : BoundaryValues :=
  update_bcs
    { bc := bc, bcs := (0, 0), bcs_final := (0, 0),
      sl0 := 0, sl1 := 1, slm1 := -1, slm2 := -2 } bc

/-- `set_slices`: store `T.sl(0)`, `T.sl(1)`, `T.sl(-1)`, `T.sl(-2)` of the
Dirichlet basis. -/
def set_slices (v : BoundaryValues) : BoundaryValues :=
  { v with sl0 := 0, sl1 := 1, slm1 := -1, slm2 := -2 }

/-- `has_nonhomogeneous_bcs`: `False` iff both processed boundary values
are zero. -/
def has_nonhomogeneous_bcs (v : BoundaryValues) : Bool :=
  if v.bcs.1 = 0 ∧ v.bcs.2 = 0 then false else true

/-- `apply_before` on an array of length `n` along the axis of the basis:
add `scales[0]*(bc0+bc1)` into `u[sl0]` and `scales[1]*(bc0-bc1)` into
`u[sl1]`, reading the pair from `bcs_final` when `final` and from `bcs`
otherwise. -/
def apply_before (v : BoundaryValues) (n : Nat) (u : Nat → Int)
    (final : Bool) (scales : Int × Int) : Nat → Int :=
  let b := if final then v.bcs_final else v.bcs
  let i0 := pyIdx n v.sl0
  let i1 := pyIdx n v.sl1
  let u1 := upd u i0 (u i0 + scales.1 * (b.1 + b.2))
  upd u1 i1 (u1 i1 + scales.2 * (b.1 - b.2))

/-- `apply_after` on an array of length `n` along the axis of the basis:
overwrite `u[slm2]` with the first and `u[slm1]` with the second stored
boundary coefficient (`bcs_final` when `final`, else `bcs`). -/
def apply_after (v : BoundaryValues) (n : Nat) (u : Nat → Int)
    (final : Bool) : Nat → Int :=
  let b := if final then v.bcs_final else v.bcs
  let u1 := upd u (pyIdx n v.slm2) b.1
  upd u1 (pyIdx n v.slm1) b.2

/-! ## set_tensor_bcs

The branch of `set_tensor_bcs` for a Dirichlet basis embedded in a
`TensorProductSpace`.  The source walks `reversed(T.axes)` — the stages of
the forward pipeline in execution order — tagging each stage `'D'`
(Shen-Dirichlet) or `'F'` (other, i.e. Fourier), and counts in
`number_of_bases_after_dirichlet` the `'F'` stages executed before the
Dirichlet stage.  The boundary data of interest are the two rows
`b[slm2]`, `b[slm1]`; the action of pipeline stage `i` on that pair is
abstracted as `xf i`.  The result also reports how many stage transforms
(`xfftn` executions) were performed on boundary data, to expose the
homogeneous fast path.  For 3 or more leading Fourier stages the source
leaves `b_hat` unbound and raises; this is the `Except.error` case. -/

/-- Stage tag, as collected in the `bases` list of `set_tensor_bcs`. -/
inductive Tag where
  | D
  | F
deriving DecidableEq

/-- `number_of_bases_after_dirichlet`: stages tagged `'F'` before the first
`'D'` in pipeline execution order. -/
def countAfterDirichlet : List Tag → Nat
  | [] => 0
  | Tag.D :: _ => 0
  | Tag.F :: rest => countAfterDirichlet rest + 1

/-- Number of `'F'` tags: stage transforms executed by the final loop of
`set_tensor_bcs` (a `'D'` stage only copies input to output there). -/
def countF : List Tag → Nat
  | [] => 0
  | Tag.D :: rest => countF rest
  | Tag.F :: rest => countF rest + 1

/-- Push the boundary pair through the whole pipeline (the loop computing
`bcs_final`): stage `i` applies its transform when tagged `'F'` and copies
otherwise. -/
def push_final (xf : Nat → Int × Int → Int × Int) :
    Nat → List Tag → Int × Int → Int × Int
  | _, [], b => b
  | i, Tag.F :: rest, b => push_final xf (i + 1) rest (xf i b)
  | i, Tag.D :: rest, b => push_final xf (i + 1) rest b

/-- `set_tensor_bcs` for a Dirichlet basis inside a tensor-product space,
constant boundary values.  Returns the updated state together with the
number of stage transforms executed on boundary data, or an error when the
source would hit the unbound `b_hat` (3+ Fourier stages before the
Dirichlet one, nonhomogeneous data). -/
def set_tensor_bcs (v : BoundaryValues) (tags : List Tag)
    (xf : Nat → Int × Int → Int × Int) :
    Except Unit (BoundaryValues × Nat) :=
  let v1 := set_slices v
  if has_nonhomogeneous_bcs v1 = false then
    Except.ok ({ v1 with bcs := (0, 0), bcs_final := (0, 0) }, 0)
  else
    let b := v1.bc
    let n := countAfterDirichlet tags
    if n = 0 then
      let bhat := b
      let fhat := push_final xf 0 tags b
      Except.ok ({ v1 with bcs := bhat, bcs_final := fhat }, countF tags)
    else if n = 1 then
      let bhat := xf 0 b
      let fhat := push_final xf 0 tags b
      Except.ok ({ v1 with bcs := bhat, bcs_final := fhat }, 1 + countF tags)
    else if n = 2 then
      let bhat := xf 1 (xf 0 b)
      let fhat := push_final xf 0 tags b
      Except.ok ({ v1 with bcs := bhat, bcs_final := fhat }, 2 + countF tags)
    else
      Except.error ()

/-! ## TensorProductSpace construction (tensorproductspace.py)

Only the data the claims depend on is kept of each 1D basis: whether it is
a complex-to-complex Fourier basis (`C2CBasis`), a real-to-complex one
(`R2CBasis`), or anything else.  A dtype is modelled by whether it is
complex (`numpy` chars `FDG`) or real (`fdg`). -/

/-- Kind of a 1D basis, as tested by the `isinstance` checks of
`TensorProductSpace.__init__`. -/
inductive BasisKind where
  | C2C
  | R2C
  | Poly
deriving DecidableEq

/-- Resolution of the `axes` argument: `None` becomes `range(ndim)`,
negative entries have `ndim` added. -/
def resolve_axes (ndim : Nat) : Option (List Int) → List Int
  | none => (List.range ndim).map (fun i => (i : Int))
  | some l => l.map (fun a => if a < 0 then a + ndim else a)

/-- The four axes assertions of `__init__`:
`min(axes) >= 0`, `max(axes) < len(shape)`, `0 < len(axes) <= len(shape)`,
`sorted(axes) == sorted(set(axes))` (no duplicates); `min`/`max` on an
empty list raise, so an empty list is rejected as well. -/
def axes_ok (ndim : Nat) (axes : List Int) : Bool :=
  decide (axes ≠ []) &&
  axes.all (fun a => decide (0 ≤ a)) &&
  axes.all (fun a => decide (a < (ndim : Int))) &&
  decide (axes.length ≤ ndim) &&
  decide axes.Nodup

/-- The basis at the last pipeline axis, `bases[axes[-1]]` (axes already
resolved, so the entry is nonnegative). -/
def last_basis (bases : List BasisKind) (axes : List Int) : BasisKind :=
  bases.getD (axes.getLastD 0).toNat BasisKind.Poly

/-- Dtype resolution of `__init__`: with no explicit dtype, complex iff the
last-axis basis is `C2CBasis`; with an explicit dtype, assert complexness
when the last-axis basis is `C2CBasis` and realness when it is `R2CBasis`.
A dtype is represented by `isComplex : Bool`. -/
def infer_dtype (lastBase : BasisKind) : Option Bool → Except Unit Bool
  | none => Except.ok (decide (lastBase = BasisKind.C2C))
  | some dt =>
    if lastBase = BasisKind.C2C then
      if dt then Except.ok dt else Except.error ()
    else if lastBase = BasisKind.R2C then
      if dt then Except.error () else Except.ok dt
    else Except.ok dt

/-- Constructed space: the resolved pipeline order, the working dtype, and
the stage/transfer bookkeeping.  `self.xfftn` receives one entry for the
last pipeline axis plus one per iteration over `reversed(self.axes[:-1])`,
so `numStages = len(axes)`; `self.transfer` receives one entry per
iteration of that same loop, so `numTransfers = len(axes) - 1`. -/
structure TPSModel where
  axes : List Int
  dtype : Bool
  numStages : Nat
  numTransfers : Nat
deriving DecidableEq

/-- `TensorProductSpace.__init__` restricted to the validation and
bookkeeping the claims are about (serial layout; the pencil geometry is
not modelled).  Any failing assertion is `Except.error`. -/
def tps_init (bases : List BasisKind) (axesOpt : Option (List Int))
    (dtypeOpt : Option Bool) : Except Unit TPSModel :=
  if bases.length = 0 then Except.error ()
  else
    let ndim := bases.length
    let axes := resolve_axes ndim axesOpt
    if axes_ok ndim axes then
      match infer_dtype (last_basis bases axes) dtypeOpt with
      | Except.error _ => Except.error ()
      | Except.ok dt =>
        Except.ok
          { axes := axes, dtype := dt,
            numStages := axes.length,
            numTransfers := axes.length - 1 }
    else Except.error ()

/-! ## R2CBasis truncation and padding (fourier/bases.py)

Complex values are pairs of rationals.  The truncated spectral array has
`M` retained modes (`M = N//2 + 1` in the source); arrays are again viewed
along `self.axis`. -/

/-- Complex scalar as a pair of rationals. -/
structure Cx where
  re : ℚ
  im : ℚ
deriving DecidableEq

/-- Complex zero. -/
def Cx.zero : Cx := ⟨0, 0⟩

/-- `R2CBasis._truncation_forward`: when `padding_factor > 1`, zero the
truncated array, copy the first `M` modes of the padded transform, and for
even `N` replace the last retained (Nyquist) mode by twice its real part.
When `padding_factor <= 1` the truncated array is left untouched. -/
def truncation_forward_r2c (Nb : Nat) (pfGtOne : Bool) (M : Nat)
    (padded trunc : Nat → Cx) : Nat → Cx :=
  if pfGtOne then
    let t1 : Nat → Cx := fun i => padded i
    if Nb % 2 = 0 then
      upd t1 (M - 1) ⟨2 * (t1 (M - 1)).re, 0⟩
    else t1
  else trunc

/-- `R2CBasis._padding_backward`: when `padding_factor > 1`, zero the
padded array, copy the `M` retained modes, and for even `N` replace the
Nyquist mode by half its real part; with `dealias_direct`, instead zero
all modes from `floor(N/3)` on. -/
def padding_backward_r2c (Nb : Nat) (pfGtOne dealiasDirect : Bool) (M : Nat)
    (trunc padded : Nat → Cx) : Nat → Cx :=
  if pfGtOne then
    let p1 : Nat → Cx := fun i => if i < M then trunc i else Cx.zero
    if Nb % 2 = 0 then
      upd p1 (M - 1) ⟨(p1 (M - 1)).re / 2, 0⟩
    else p1
  else if dealiasDirect then
    fun i => if Nb / 3 ≤ i then Cx.zero else padded i
  else padded

/-! ## SpectralBase.forward and apply_inverse_mass (spectralbase.py)

A basis is a record of the data `apply_inverse_mass` consults plus its
abstract (subclass-provided) scalar product.  The mass matrix produced by
`get_mass_matrix` is abstracted to the data the cache test reads —
`testfunction[0].quad` and `testfunction[0].N` — plus its `solve`; the
builder receives the `N` and `quad` of the basis it is built from. -/

/-- Mass matrix: test-function data consulted by the cache check, and the
solver applied to coefficient arrays. -/
structure MassMat where
  testQuad : String
  testN : Nat
  solve : List ℚ → List ℚ

/-- A spectral basis: quadrature data plus the family-specific scalar
product `(fj, fast_transform) ↦ fk` and mass-matrix builder. -/
structure SBase where
  N : Nat
  quad : String
  scalar_product : List ℚ → Bool → List ℚ
  get_mass_matrix : Nat → String → MassMat

/-- `apply_inverse_mass`: build the mass matrix on first use (asserting
that `N` matches the coefficient count), rebuild it when its test function
no longer matches the current `quad` or the array length, then solve.
The state is the `_mass` cache. -/
def apply_inverse_mass (b : SBase) (mass : Option MassMat) (fk : List ℚ) :
    Except Unit (Option MassMat × List ℚ) :=
  match mass with
  | none =>
    if b.N = fk.length then
      let m := b.get_mass_matrix b.N b.quad
      let m2 := if m.testQuad ≠ b.quad ∨ m.testN ≠ fk.length then
                  b.get_mass_matrix b.N b.quad
                else m
      Except.ok (some m2, m2.solve fk)
    else Except.error ()
  | some m =>
    let m2 := if m.testQuad ≠ b.quad ∨ m.testN ≠ fk.length then
                b.get_mass_matrix b.N b.quad
              else m
    Except.ok (some m2, m2.solve fk)

/-- `SpectralBase.forward`: scalar product of the physical values into the
coefficient array, then the inverse mass matrix applied to that result. -/
def SBase.forward (b : SBase) (mass : Option MassMat) (fj : List ℚ)
    (fast : Bool) : Except Unit (Option MassMat × List ℚ) :=
  let fk := b.scalar_product fj fast
  apply_inverse_mass b mass fk

/-! ## LegendreBase.plan (legendre/bases.py)

The plan state of a Legendre basis (`ShenDirichletBasis.plan` guards
identically): once `self.forward` is a `Transform`, a new `plan` call
first compares `self.forward.input_array.shape` with the requested shape
and `self.axis` with the requested axis and returns without touching
anything when both match; otherwise fresh buffers are allocated.  `gen`
counts buffer allocations so that discarding is observable. -/

/-- Data of a planned Legendre basis: buffer shape, axis, the dtype the
buffers were allocated with, and the allocation generation. -/
structure LegPlanned where
  shape : List Nat
  axis : Nat
  bufDtype : Bool
  gen : Nat
deriving DecidableEq

/-- Plan state: `none` while `self.forward` is still the unplanned bound
method, `some p` once it is a `Transform` over allocated buffers. -/
structure LegState where
  planned : Option LegPlanned
deriving DecidableEq

/-- `LegendreBase.plan` (and the identical guard in
`ShenDirichletBasis.plan`): early return when already planned with the
same shape and axis; otherwise allocate new buffers of the requested
shape and dtype. -/
def leg_plan (st : LegState) (shape : List Nat) (axis : Nat)
    (dtype : Bool) : LegState :=
  match st.planned with
  | some p =>
    if p.shape = shape ∧ p.axis = axis then st
    else { planned := some { shape := shape, axis := axis,
                             bufDtype := dtype, gen := p.gen + 1 } }
  | none =>
    { planned := some { shape := shape, axis := axis,
                        bufDtype := dtype, gen := 0 } }

/-! ## SpectralBase equality and hashing (spectralbase.py)

`__eq__` compares `self.__class__.__name__` with the other object's class
name; `__hash__` hashes `repr(self.__class__)`.  Both depend only on the
class of the instance, never on `N`, `quad` or `domain`. -/

/-- A Python basis instance: its class name and its constructor data. -/
structure PyBasis where
  className : String
  N : Nat
  quad : String
  domainLeft : ℚ
  domainRight : ℚ

/-- `SpectralBase.__eq__`: equality of class names. -/
def basis_eq (a b : PyBasis) : Bool :=
  a.className == b.className

/-- `SpectralBase.__hash__`: `hash(repr(self.__class__))`, a function of
the class name alone. -/
def basis_hash (b : PyBasis) : UInt64 :=
  ("<class " ++ b.className ++ ">").hash

/-! ## Concrete instances used by witnesses and counterexamples -/

/-- Boundary values (0, 0): the homogeneous case. -/
def bvHom : BoundaryValues := mkBoundaryValues (0, 0)

/-- Boundary values (2, 1): a nonhomogeneous case. -/
def bvNonHom : BoundaryValues := mkBoundaryValues (2, 1)

/-- Boundary values (5, 7): another nonhomogeneous case. -/
def bvFiveSeven : BoundaryValues := mkBoundaryValues (5, 7)

/-- The all-zero coefficient array. -/
def u0 : Nat → Int := fun _ => 0

/-- The ramp coefficient array `u[i] = i`. -/
def uRamp : Nat → Int := fun i => (i : Int)

/-- Three Fourier stages executed before the Dirichlet one. -/
def tagsFFFD : List Tag := [Tag.F, Tag.F, Tag.F, Tag.D]

/-- Three polynomial bases. -/
def basesPPP : List BasisKind :=
  [BasisKind.Poly, BasisKind.Poly, BasisKind.Poly]

/-- A concrete padded spectral array. -/
def padC8 : Nat → Cx := fun i => ⟨(i : ℚ), 1⟩

/-- A concrete truncated spectral array. -/
def truncC8 : Nat → Cx := fun i => ⟨(i : ℚ) + 2, 3⟩

/-- State of a Legendre basis planned for shape [4], axis 0, real dtype. -/
def stReal : LegState := leg_plan ⟨none⟩ [4] 0 false

/-- A Chebyshev basis instance. -/
def cheb1 : PyBasis := ⟨"ChebyshevBasis", 8, "GC", -1, 1⟩

/-- A second Chebyshev basis instance with different constructor data. -/
def cheb2 : PyBasis := ⟨"ChebyshevBasis", 32, "GL", 0, 2⟩

/-! ## Helper lemmas -/

/-- Computation rule for `Except.isOk` on a success. -/
theorem isOk_ok {ε α : Type} (x : α) :
    (Except.ok x : Except ε α).isOk = true := rfl

/-- Computation rule for `Except.isOk` on a failure. -/
theorem isOk_error {ε α : Type} (e : ε) :
    (Except.error e : Except ε α).isOk = false := rfl

/-- A validated pipeline order forces a positive number of dimensions. -/
theorem axes_ok_pos (ndim : Nat) (axes : List Int)
    (h : axes_ok ndim axes = true) : 0 < ndim := by
  unfold axes_ok at h
  simp only [Bool.and_eq_true, decide_eq_true_eq, List.all_eq_true] at h
  obtain ⟨⟨⟨⟨hne, h0⟩, hlt⟩, -⟩, -⟩ := h
  cases axes with
  | nil => exact absurd rfl hne
  | cons a rest =>
    have ha0 := h0 a (by simp)
    have ha1 := hlt a (by simp)
    simp at ha0 ha1
    omega

/-! ## Claims -/

/-- C1: `SpectralBase.forward` returns the result of first computing the
scalar product of the input and then applying the inverse mass matrix to
that result, for `fast_transform` true as well as false. -/
theorem forward_is_inverse_mass_of_scalar_product
    (b : SBase) (mass : Option MassMat) (fj : List ℚ) :
    SBase.forward b mass fj true
      = apply_inverse_mass b mass (b.scalar_product fj true) ∧
    SBase.forward b mass fj false
      = apply_inverse_mass b mass (b.scalar_product fj false) :=
  ⟨rfl, rfl⟩

/-- C2: `has_nonhomogeneous_bcs` is true iff at least one of the stored
boundary values is non-zero, and when both are zero `set_tensor_bcs` sets
`bcs` and `bcs_final` to `(0, 0)` and returns with zero boundary-data
transforms executed. -/
theorem has_nonhomogeneous_bcs_iff_and_homogeneous_skips
    (v : BoundaryValues) (tags : List Tag)
    (xf : Nat → Int × Int → Int × Int) :
    (has_nonhomogeneous_bcs v = true ↔ (v.bcs.1 ≠ 0 ∨ v.bcs.2 ≠ 0)) ∧
    (v.bcs = (0, 0) →
      set_tensor_bcs v tags xf
        = Except.ok
            ({ set_slices v with bcs := (0, 0), bcs_final := (0, 0) }, 0)) := by
  constructor
  · unfold has_nonhomogeneous_bcs
    by_cases h : v.bcs.1 = 0 ∧ v.bcs.2 = 0
    · simp [h]
    · simp only [h, if_false]
      constructor
      · intro _
        rcases not_and_or.mp h with h1 | h2
        · exact Or.inl h1
        · exact Or.inr h2
      · intro _; trivial
  · intro h
    have hz : has_nonhomogeneous_bcs (set_slices v) = false := by
      unfold has_nonhomogeneous_bcs set_slices
      simp [h]
    unfold set_tensor_bcs
    simp [hz]

/-- C2 witness: the homogeneous fast path on a concrete space. -/
theorem has_nonhomogeneous_bcs_iff_and_homogeneous_skips_witness :
    set_tensor_bcs bvHom [Tag.F, Tag.D] (fun _ p => p)
      = Except.ok (⟨(0, 0), (0, 0), (0, 0), 0, 1, -1, -2⟩, 0) :=
  (has_nonhomogeneous_bcs_iff_and_homogeneous_skips bvHom
    [Tag.F, Tag.D] (fun _ p => p)).2 rfl

/-- C3 counterexample: for the length-4 zero array with boundary values
(2, 1) and unit scales, `apply_before` does not add the weighted sum and
difference into the boundary-adjacent slots `u[2]`, `u[3]` (the last two)
while leaving the rest alone — it modifies `u[0]` instead. -/
theorem apply_before_not_into_boundary_adjacent :
    ¬ (apply_before bvNonHom 4 u0 false (1, 1) 2 = u0 2 + 1 * (2 + 1) ∧
       apply_before bvNonHom 4 u0 false (1, 1) 3 = u0 3 + 1 * (2 - 1) ∧
       apply_before bvNonHom 4 u0 false (1, 1) 0 = u0 0) := by
  decide

/-- C3 (amended): `apply_before` adds `scales[0]*(bc0 + bc1)` into the
entry at index 0 and `scales[1]*(bc0 - bc1)` into the entry at index 1
along the axis of the basis — the slots `sl0` and `sl1` carrying the
zeroth- and first-order polynomial content of the two boundary basis
functions — taking the pair from `bcs_final` when `final` is true and from
`bcs` otherwise, and modifies no other entry. -/
theorem apply_before_adds_into_first_two
    (v : BoundaryValues) (n : Nat) (u : Nat → Int) (final : Bool)
    (scales : Int × Int) (hn : 2 ≤ n)
    (h0 : v.sl0 = 0) (h1 : v.sl1 = 1) :
    apply_before v n u final scales 0
      = u 0 + scales.1 * ((if final then v.bcs_final else v.bcs).1
                          + (if final then v.bcs_final else v.bcs).2) ∧
    apply_before v n u final scales 1
      = u 1 + scales.2 * ((if final then v.bcs_final else v.bcs).1
                          - (if final then v.bcs_final else v.bcs).2) ∧
    ∀ i, 2 ≤ i → apply_before v n u final scales i = u i := by
  have e0 : pyIdx n v.sl0 = 0 := by simp [pyIdx, h0]
  have e1 : pyIdx n v.sl1 = 1 := by simp [pyIdx, h1]
  refine ⟨?_, ?_, ?_⟩
  · simp [apply_before, upd, e0, e1]
  · simp [apply_before, upd, e0, e1]
  · intro i hi
    have hi0 : i ≠ 0 := by omega
    have hi1 : i ≠ 1 := by omega
    simp [apply_before, upd, e0, e1, hi0, hi1]

/-- C3 witness: the amended behavior on a concrete array. -/
theorem apply_before_adds_into_first_two_witness :
    apply_before bvFiveSeven 4 uRamp false (1, 1) 0
      = uRamp 0 + 1 * ((if false then bvFiveSeven.bcs_final
                        else bvFiveSeven.bcs).1
                       + (if false then bvFiveSeven.bcs_final
                          else bvFiveSeven.bcs).2) ∧
    apply_before bvFiveSeven 4 uRamp false (1, 1) 3 = uRamp 3 :=
  ⟨(apply_before_adds_into_first_two bvFiveSeven 4 uRamp false (1, 1)
      (by decide) rfl rfl).1,
   (apply_before_adds_into_first_two bvFiveSeven 4 uRamp false (1, 1)
      (by decide) rfl rfl).2.2 3 (by decide)⟩

/-- C4: `apply_after` overwrites exactly the two boundary-adjacent entries
`u[n-2]` and `u[n-1]` along the axis of the basis with the stored pair
(`bcs_final` when `final` is true, `bcs` otherwise), and every other entry
is left unchanged. -/
theorem apply_after_overwrites_last_two
    (v : BoundaryValues) (n : Nat) (u : Nat → Int) (final : Bool)
    (hn : 2 ≤ n) (hm2 : v.slm2 = -2) (hm1 : v.slm1 = -1) :
    apply_after v n u final (n - 2)
      = (if final then v.bcs_final else v.bcs).1 ∧
    apply_after v n u final (n - 1)
      = (if final then v.bcs_final else v.bcs).2 ∧
    ∀ i, i ≠ n - 2 → i ≠ n - 1 → apply_after v n u final i = u i := by
  have em2 : pyIdx n v.slm2 = n - 2 := by
    unfold pyIdx
    rw [hm2]
    norm_num
    omega
  have em1 : pyIdx n v.slm1 = n - 1 := by
    unfold pyIdx
    rw [hm1]
    norm_num
    omega
  have hne : n - 2 ≠ n - 1 := by omega
  refine ⟨?_, ?_, ?_⟩
  · simp [apply_after, upd, em2, em1, hne]
  · simp [apply_after, upd, em2, em1]
  · intro i hi2 hi1
    simp [apply_after, upd, em2, em1, hi2, hi1]

/-- C4 witness: `apply_after` on a concrete array of length 4. -/
theorem apply_after_overwrites_last_two_witness :
    apply_after bvFiveSeven 4 uRamp true 2 = bvFiveSeven.bcs_final.1 ∧
    apply_after bvFiveSeven 4 uRamp true 1 = uRamp 1 :=
  ⟨(apply_after_overwrites_last_two bvFiveSeven 4 uRamp true
      (by decide) rfl rfl).1,
   (apply_after_overwrites_last_two bvFiveSeven 4 uRamp true
      (by decide) rfl rfl).2.2 1 (by decide) (by decide)⟩

/-- C5: with a validated pipeline order, construction without an explicit
dtype succeeds and infers a complex dtype iff the basis at the last
pipeline axis is complex-to-complex; an explicit real dtype with a
complex-to-complex last basis, or an explicit complex dtype with a
real-to-complex last basis, makes construction fail. -/
theorem tps_dtype_inference_and_rejection
    (bases : List BasisKind) (axesRaw : List Int)
    (hax : axes_ok bases.length
             (resolve_axes bases.length (some axesRaw)) = true) :
    (∃ t, tps_init bases (some axesRaw) none = Except.ok t ∧
        (t.dtype = true ↔
          last_basis bases (resolve_axes bases.length (some axesRaw))
            = BasisKind.C2C)) ∧
    (last_basis bases (resolve_axes bases.length (some axesRaw))
        = BasisKind.C2C →
      tps_init bases (some axesRaw) (some false) = Except.error ()) ∧
    (last_basis bases (resolve_axes bases.length (some axesRaw))
        = BasisKind.R2C →
      tps_init bases (some axesRaw) (some true) = Except.error ()) := by
  have hb : ¬ (bases.length = 0) := by
    have := axes_ok_pos _ _ hax
    omega
  refine ⟨?_, ?_, ?_⟩
  · have hrun : tps_init bases (some axesRaw) none
        = Except.ok
            { axes := resolve_axes bases.length (some axesRaw),
              dtype := decide (last_basis bases
                  (resolve_axes bases.length (some axesRaw))
                    = BasisKind.C2C),
              numStages :=
                (resolve_axes bases.length (some axesRaw)).length,
              numTransfers :=
                (resolve_axes bases.length (some axesRaw)).length - 1 } := by
      simp [tps_init, hb, hax, infer_dtype]
    exact ⟨_, hrun, by simp⟩
  · intro h
    simp [tps_init, hb, hax, infer_dtype, h]
  · intro h
    simp [tps_init, hb, hax, infer_dtype, h]

/-- C5 witness: a space with a complex-to-complex basis on the last
pipeline axis rejects an explicit real dtype. -/
theorem tps_dtype_inference_and_rejection_witness :
    tps_init [BasisKind.Poly, BasisKind.C2C] (some [0, 1]) (some false)
      = Except.error () :=
  (tps_dtype_inference_and_rejection [BasisKind.Poly, BasisKind.C2C]
    [0, 1] (by decide)).2.1 (by decide)

/-- C6 counterexample: with three bases, the pipeline order [0, 2] —
which misses dimension 1 and is therefore no permutation of 0..2 — is
accepted by construction. -/
theorem tps_accepts_non_permutation_axes :
    (tps_init basesPPP (some [0, 2]) none).isOk = true ∧
    ¬ (resolve_axes 3 (some [0, 2])).Perm
        ((List.range 3).map (fun i => (i : Int))) := by
  decide

/-- C6 (amended): with a nonempty bases list and no explicit dtype,
construction accepts a pipeline order iff, after resolving negative
entries, it is a nonempty duplicate-free list of in-range dimension
indices — any injective sublist of 0..ndim-1, full coverage is not
required — and the constructed space holds exactly `len(axes) - 1`
redistribution operators between its `len(axes)` local-transform
stages. -/
theorem tps_axes_validation_and_transfer_count
    (bases : List BasisKind) (axesRaw : List Int) (hb : bases ≠ []) :
    ((tps_init bases (some axesRaw) none).isOk = true ↔
      axes_ok bases.length
        (resolve_axes bases.length (some axesRaw)) = true) ∧
    (∀ t, tps_init bases (some axesRaw) none = Except.ok t →
      t.numStages = t.axes.length ∧
      t.numTransfers = t.axes.length - 1 ∧
      t.axes = resolve_axes bases.length (some axesRaw)) := by
  have hb0 : ¬ (bases.length = 0) := by
    simpa [List.length_eq_zero] using hb
  by_cases hok : axes_ok bases.length
      (resolve_axes bases.length (some axesRaw)) = true
  · constructor
    · simp [tps_init, hb0, hok, infer_dtype, isOk_ok]
    · intro t ht
      simp [tps_init, hb0, hok, infer_dtype] at ht
      simp [← ht]
  · constructor
    · simp [tps_init, hb0, hok, isOk_error]
    · intro t ht
      simp [tps_init, hb0, hok] at ht

/-- C6 witness: the acceptance criterion evaluated on the concrete
non-permutation order [0, 2] over three bases. -/
theorem tps_axes_validation_and_transfer_count_witness :
    (tps_init basesPPP (some [0, 2]) none).isOk = true ↔
      axes_ok basesPPP.length
        (resolve_axes basesPPP.length (some [0, 2])) = true :=
  (tps_axes_validation_and_transfer_count basesPPP [0, 2] (by decide)).1

/-- C7 counterexample: a pipeline with three Fourier stages executed ahead
of the Dirichlet stage and homogeneous boundary values (0, 0) passes
`set_tensor_bcs` without any error, so construction succeeds instead of
failing. -/
theorem set_tensor_bcs_depth3_homogeneous_succeeds :
    countAfterDirichlet tagsFFFD = 3 ∧
    (set_tensor_bcs bvHom tagsFFFD (fun _ p => p)).isOk = true := by
  decide

/-- C7 (amended): with more than two periodic stages executed ahead of the
Dirichlet stage, `set_tensor_bcs` — and with it construction — fails
whenever the boundary values are nonhomogeneous (the source leaves `b_hat`
unbound and raises, an unbound-variable error rather than an explicit
configuration check); with homogeneous boundary values the unsupported
depth is accepted and construction succeeds, because the homogeneous fast
path returns before the depth is examined. -/
theorem set_tensor_bcs_depth3_fails_iff_nonhomogeneous
    (v : BoundaryValues) (tags : List Tag)
    (xf : Nat → Int × Int → Int × Int)
    (hd : 3 ≤ countAfterDirichlet tags) :
    (has_nonhomogeneous_bcs v = true →
      set_tensor_bcs v tags xf = Except.error ()) ∧
    (has_nonhomogeneous_bcs v = false →
      (set_tensor_bcs v tags xf).isOk = true) := by
  have hsl : has_nonhomogeneous_bcs (set_slices v)
      = has_nonhomogeneous_bcs v := rfl
  have h0 : ¬ (countAfterDirichlet tags = 0) := by omega
  have h1 : ¬ (countAfterDirichlet tags = 1) := by omega
  have h2 : ¬ (countAfterDirichlet tags = 2) := by omega
  constructor
  · intro h
    unfold set_tensor_bcs
    simp [hsl, h, h0, h1, h2]
  · intro h
    unfold set_tensor_bcs
    simp [hsl, h, isOk_ok]

/-- C7 witness: nonhomogeneous boundary values with three leading Fourier
stages make `set_tensor_bcs` fail. -/
theorem set_tensor_bcs_depth3_fails_iff_nonhomogeneous_witness :
    set_tensor_bcs bvNonHom tagsFFFD (fun _ p => p) = Except.error () :=
  (set_tensor_bcs_depth3_fails_iff_nonhomogeneous bvNonHom tagsFFFD
    (fun _ p => p) (by decide)).1 (by decide)

/-- C8: for the real-to-complex Fourier basis with even `N` and
`padding_factor > 1`, forward truncation sets the last retained (Nyquist)
mode to twice its real part with the imaginary part discarded while
copying every lower retained mode unchanged, and backward padding sets
that mode to half its real part while copying every lower retained mode
unchanged. -/
theorem r2c_nyquist_truncation_padding
    (Nb M : Nat) (padded trunc : Nat → Cx)
    (heven : Nb % 2 = 0) (hM : 1 ≤ M) :
    (∀ i, i < M - 1 →
      truncation_forward_r2c Nb true M padded trunc i = padded i) ∧
    truncation_forward_r2c Nb true M padded trunc (M - 1)
      = ⟨2 * (padded (M - 1)).re, 0⟩ ∧
    (∀ i, i < M - 1 →
      padding_backward_r2c Nb true false M trunc padded i = trunc i) ∧
    padding_backward_r2c Nb true false M trunc padded (M - 1)
      = ⟨(trunc (M - 1)).re / 2, 0⟩ := by
  refine ⟨?_, ?_, ?_, ?_⟩
  · intro i hi
    have hne : i ≠ M - 1 := by omega
    simp [truncation_forward_r2c, upd, heven, hne]
  · simp [truncation_forward_r2c, upd, heven]
  · intro i hi
    have hne : i ≠ M - 1 := by omega
    have hlt : i < M := by omega
    simp [padding_backward_r2c, upd, heven, hne, hlt]
  · have hlt : M - 1 < M := by omega
    simp [padding_backward_r2c, upd, heven, hlt]

/-- C8 witness: Nyquist handling for `N = 8`, five retained modes. -/
theorem r2c_nyquist_truncation_padding_witness :
    truncation_forward_r2c 8 true 5 padC8 truncC8 0 = padC8 0 ∧
    truncation_forward_r2c 8 true 5 padC8 truncC8 4
      = ⟨2 * (padC8 4).re, 0⟩ ∧
    padding_backward_r2c 8 true false 5 truncC8 padC8 4
      = ⟨(truncC8 4).re / 2, 0⟩ :=
  ⟨(r2c_nyquist_truncation_padding 8 5 padC8 truncC8 rfl
      (by decide)).1 0 (by decide),
   (r2c_nyquist_truncation_padding 8 5 padC8 truncC8 rfl (by decide)).2.1,
   (r2c_nyquist_truncation_padding 8 5 padC8 truncC8 rfl
      (by decide)).2.2.2⟩

/-- C9 counterexample: re-planning with the same shape and axis but a
different dtype is treated as "already planned": the state — including the
dtype the buffers were allocated with and the allocation generation — is
left untouched, so the prior buffers are not discarded although a
parameter differs. -/
theorem leg_plan_dtype_change_not_replanned :
    leg_plan stReal [4] 0 true = stReal ∧
    stReal.planned = some ⟨[4], 0, false, 0⟩ ∧
    ¬ (leg_plan stReal [4] 0 true).planned = some ⟨[4], 0, true, 1⟩ := by
  decide

/-- C9 (amended): re-planning is a no-op exactly when the requested shape
and axis match the planned ones — the dtype is not consulted, so identical
(shape, axis, dtype) is in particular a no-op, but a changed dtype alone
also leaves the prior buffers in place; when the shape or the axis
differs, the prior buffers are discarded and fresh ones allocated with the
requested parameters. -/
theorem leg_plan_noop_iff_shape_axis_match
    (st : LegState) (p : LegPlanned) (shape : List Nat) (axis : Nat)
    (dtype : Bool) (hp : st.planned = some p) :
    (p.shape = shape ∧ p.axis = axis →
      leg_plan st shape axis dtype = st) ∧
    (¬ (p.shape = shape ∧ p.axis = axis) →
      leg_plan st shape axis dtype
        = ⟨some ⟨shape, axis, dtype, p.gen + 1⟩⟩) := by
  constructor
  · intro h
    simp [leg_plan, hp, h]
  · intro h
    simp [leg_plan, hp, h]

/-- C9 witness: identical shape and axis is a no-op; a changed shape
discards the buffers and allocates anew. -/
theorem leg_plan_noop_iff_shape_axis_match_witness :
    leg_plan stReal [4] 0 false = stReal ∧
    leg_plan stReal [8] 0 false = ⟨some ⟨[8], 0, false, 1⟩⟩ :=
  ⟨(leg_plan_noop_iff_shape_axis_match stReal ⟨[4], 0, false, 0⟩
      [4] 0 false rfl).1 ⟨rfl, rfl⟩,
   (leg_plan_noop_iff_shape_axis_match stReal ⟨[4], 0, false, 0⟩
      [8] 0 false rfl).2 (by decide)⟩

/-- C10: equality and hashing of basis instances depend only on the class
name: two instances of the same class are equal and hash alike, whatever
their `N`, quadrature rule or domain. -/
theorem basis_eq_hash_class_only (a b : PyBasis)
    (h : a.className = b.className) :
    basis_eq a b = true ∧ basis_hash a = basis_hash b := by
  constructor
  · simp [basis_eq, h]
  · simp [basis_hash, h]

/-- C10 witness: two Chebyshev instances with different `N`, quadrature
and domain compare equal and hash alike. -/
theorem basis_eq_hash_class_only_witness :
    basis_eq cheb1 cheb2 = true ∧ basis_hash cheb1 = basis_hash cheb2 :=
  basis_eq_hash_class_only cheb1 cheb2 rfl

end Shenfun
